import Mathlib

/-!
Verification of the yart release tool (version-transition validator,
release orchestrator and git adapter) against its specification.

The git adapter is embedded from src/src/git/git.js: each operation is a
function of the result of the spawned subprocess (exit status and stdout),
since the subprocess itself is the external environment.  The validator
and orchestrator sources are not part of the repository snapshot (only the
validator test suite is), so they are modelled from the specification and
the behaviour pinned down by src/src/validate-transition.test.js.
-/

/-- A semantic version: an ordered triple of non-negative integers. -/
structure SemVer where
  major : Nat
  minor : Nat
  patch : Nat
deriving DecidableEq, Repr

/-- Decimal digit character for a value below ten, through the character
code 48 of the zero digit. -/
def digitOf (d : Nat) : Char := Char.ofNat (48 + d)

/-- Numeric value of a decimal digit character, none for other characters,
through the character codes 48 to 57 of the ten digits. -/
def digitVal (c : Char) : Option Nat :=
  if 48 ≤ c.toNat ∧ c.toNat ≤ 57 then some (c.toNat - 48) else none

/-- Fuelled helper for decimal rendering; the fuel only drives structural
recursion and is irrelevant once it exceeds the argument. -/
def decDigitsAux (fuel n : Nat) : List Char :=
  match fuel with
  | 0 => []
  | fuel + 1 =>
    if n < 10 then [digitOf n]
    else decDigitsAux fuel (n / 10) ++ [digitOf (n % 10)]

/-- Decimal digits of a natural number, most significant first (the
rendering used by JavaScript template interpolation of a number). -/
def decDigits (n : Nat) : List Char := decDigitsAux (n + 1) n

theorem decDigitsAux_irrel (f : Nat) : ∀ g n, n < f → n < g →
    decDigitsAux f n = decDigitsAux g n := by
  induction f with
  | zero => intro g n hf; omega
  | succ f ih =>
    intro g n hf hg
    cases g with
    | zero => omega
    | succ g =>
      simp only [decDigitsAux]
      by_cases h10 : n < 10
      · simp [h10]
      · simp only [h10, if_false]
        have hdiv : n / 10 < n := Nat.div_lt_self (by omega) (by omega)
        rw [ih g (n / 10) (by omega) (by omega)]

theorem decDigits_eq (n : Nat) : decDigits n =
    if n < 10 then [digitOf n] else decDigits (n / 10) ++ [digitOf (n % 10)] := by
  by_cases h10 : n < 10
  · simp [decDigits, decDigitsAux, h10]
  · have hdiv : n / 10 < n := Nat.div_lt_self (by omega) (by omega)
    rw [if_neg h10]
    have h1 : decDigits n = decDigitsAux n (n / 10) ++ [digitOf (n % 10)] := by
      show decDigitsAux (n + 1) n = _
      rw [show decDigitsAux (n + 1) n =
        (if n < 10 then [digitOf n]
          else decDigitsAux n (n / 10) ++ [digitOf (n % 10)]) from rfl]
      rw [if_neg h10]
    rw [h1, decDigits, decDigitsAux_irrel n (n / 10 + 1) (n / 10) (by omega) (by omega)]

/-- Left-to-right decimal accumulation over characters; fails on the first
character that is not a decimal digit. -/
def parseDigits : List Char → Nat → Option Nat
  | [], acc => some acc
  | c :: cs, acc =>
    match digitVal c with
    | none => none
    | some d => parseDigits cs (acc * 10 + d)

/-- Parses a non-empty all-digit character list as a decimal number. -/
def parseNat : List Char → Option Nat
  | [] => none
  | c :: cs => parseDigits (c :: cs) 0

/-- Splits a character list at every separator character (the semantics of
the JavaScript split with a single-character pattern: empty fields kept). -/
def jsSplit (p : Char → Bool) : List Char → List (List Char)
  | [] => [[]]
  | c :: cs =>
    if p c then [] :: jsSplit p cs
    else
      match jsSplit p cs with
      | [] => [[c]]
      | t :: ts => (c :: t) :: ts

/-- Parses the strict pattern int.int.int with no leading or trailing
content, per the SemVer invariant of the data model. -/
def parseSemVerChars (l : List Char) : Option SemVer :=
  match jsSplit (fun c => c == '.') l with
  | [a, b, c] =>
    match parseNat a, parseNat b, parseNat c with
    | some x, some y, some z => some ⟨x, y, z⟩
    | _, _, _ => none
  | _ => none

/-- Parses a string as a SemVer triple. -/
def parseSemVer (s : String) : Option SemVer := parseSemVerChars s.data

/-- Canonical decimal character rendering major.minor.patch. -/
def renderChars (v : SemVer) : List Char :=
  decDigits v.major ++ ('.' :: (decDigits v.minor ++ ('.' :: decDigits v.patch)))

/-- Canonical string rendering major.minor.patch. -/
def render (v : SemVer) : String := String.mk (renderChars v)

/-- The patch successor of a version. -/
def patchSucc (v : SemVer) : SemVer := ⟨v.major, v.minor, v.patch + 1⟩

/-- The minor successor of a version. -/
def minorSucc (v : SemVer) : SemVer := ⟨v.major, v.minor + 1, 0⟩

/-- The major successor of a version. -/
def majorSucc (v : SemVer) : SemVer := ⟨v.major + 1, 0, 0⟩

theorem decDigits_ne_nil (n : Nat) : decDigits n ≠ [] := by
  rw [decDigits_eq]
  split
  · simp
  · simp

theorem mem_decDigits (n : Nat) : ∀ c ∈ decDigits n, ∃ d, d < 10 ∧ c = digitOf d := by
  induction n using Nat.strong_induction_on with
  | _ n ih =>
    rw [decDigits_eq]
    split
    · intro c hc
      simp only [List.mem_singleton] at hc
      exact ⟨n, by omega, hc⟩
    · intro c hc
      rcases List.mem_append.mp hc with h1 | h2
      · exact ih (n / 10) (Nat.div_lt_self (by omega) (by omega)) c h1
      · simp only [List.mem_singleton] at h2
        exact ⟨n % 10, Nat.mod_lt _ (by omega), h2⟩

theorem digitVal_digitOf : ∀ d, d < 10 → digitVal (digitOf d) = some d := by decide

theorem parseDigits_append (a b : List Char) (acc : Nat) :
    parseDigits (a ++ b) acc = (parseDigits a acc).bind (fun m => parseDigits b m) := by
  induction a generalizing acc with
  | nil => rfl
  | cons c cs ih =>
    simp only [List.cons_append, parseDigits]
    cases digitVal c with
    | none => rfl
    | some d => exact ih _

theorem parseDigits_decDigits (n : Nat) :
    ∀ acc, parseDigits (decDigits n) acc = some (acc * 10 ^ (decDigits n).length + n) := by
  induction n using Nat.strong_induction_on with
  | _ n ih =>
    intro acc
    rw [decDigits_eq]
    split
    · simp only [parseDigits, digitVal_digitOf n (by omega)]
      simp
    · rw [parseDigits_append]
      rw [ih (n / 10) (Nat.div_lt_self (by omega) (by omega)) acc]
      simp only [Option.some_bind, parseDigits, digitVal_digitOf (n % 10) (Nat.mod_lt _ (by omega))]
      simp only [List.length_append, List.length_singleton]
      congr 1
      have hmod : n % 10 + 10 * (n / 10) = n := Nat.mod_add_div n 10
      have hpow : acc * 10 ^ ((decDigits (n / 10)).length + 1) =
          acc * 10 ^ (decDigits (n / 10)).length * 10 := by
        rw [pow_succ, Nat.mul_assoc]
      rw [hpow]
      omega

theorem parseNat_decDigits (n : Nat) : parseNat (decDigits n) = some n := by
  rcases hd : decDigits n with _ | ⟨c, cs⟩
  · exact absurd hd (decDigits_ne_nil n)
  · have h := parseDigits_decDigits n 0
    rw [hd] at h
    simpa [parseNat] using h

theorem jsSplit_ne_nil (p : Char → Bool) (l : List Char) : jsSplit p l ≠ [] := by
  cases l with
  | nil => simp [jsSplit]
  | cons c cs =>
    simp only [jsSplit]
    split
    · simp
    · split
      · simp
      · simp

theorem jsSplit_of_no_sep (p : Char → Bool) (l : List Char)
    (h : ∀ c ∈ l, p c = false) : jsSplit p l = [l] := by
  induction l with
  | nil => rfl
  | cons c cs ih =>
    have hc : p c = false := h c (List.mem_cons_self c cs)
    have hrest : jsSplit p cs = [cs] := ih (fun x hx => h x (List.mem_cons_of_mem c hx))
    simp [jsSplit, hc, hrest]

theorem jsSplit_append_sep (p : Char → Bool) (a l : List Char) (d : Char)
    (ha : ∀ c ∈ a, p c = false) (hd : p d = true) :
    jsSplit p (a ++ d :: l) = a :: jsSplit p l := by
  induction a with
  | nil => simp [jsSplit, hd]
  | cons c cs ih =>
    have hc : p c = false := ha c (List.mem_cons_self c cs)
    have hrest := ih (fun x hx => ha x (List.mem_cons_of_mem c hx))
    simp [jsSplit, hc, hrest]

theorem digitOf_ne_dot : ∀ d, d < 10 → (digitOf d == '.') = false := by decide

theorem decDigits_no_dot (n : Nat) : ∀ c ∈ decDigits n, (c == '.') = false := by
  intro c hc
  obtain ⟨d, hd, rfl⟩ := mem_decDigits n c hc
  exact digitOf_ne_dot d hd

theorem parseSemVer_render (v : SemVer) : parseSemVer (render v) = some v := by
  obtain ⟨x, y, z⟩ := v
  simp only [parseSemVer, render, renderChars, parseSemVerChars]
  rw [jsSplit_append_sep (fun c => c == '.') (decDigits x)
      (decDigits y ++ '.' :: decDigits z) '.' (decDigits_no_dot x) (by decide),
    jsSplit_append_sep (fun c => c == '.') (decDigits y)
      (decDigits z) '.' (decDigits_no_dot y) (by decide),
    jsSplit_of_no_sep (fun c => c == '.') (decDigits z) (decDigits_no_dot z)]
  simp [parseNat_decDigits]

theorem render_ne_of_parse (v : SemVer) (s : String) (h : parseSemVer s ≠ some v) :
    render v ≠ s :=
  fun he => h (he ▸ parseSemVer_render v)

/--
Modelled from the spec: the version-transition validator
`validateTransition(currentVersion, requestedTarget)`, whose source file is
absent from the repository snapshot.  Behaviour follows section 4.1 of the
specification table (check order: empty target, current-version parse,
symbolic increments, target parse, no-gap successor membership) and the
exact diagnostic strings pinned down by src/src/validate-transition.test.js.
-/
def validateTransition (current target : String) : Except String String :=
  if target = "" then .error "Please provide version"
  else
    match parseSemVer current with
    | none => .error ("Existing version " ++ current ++ " is not semver")
    | some c =>
      if target = "major" then .ok (render (majorSucc c))
      else if target = "minor" then .ok (render (minorSucc c))
      else if target = "patch" then .ok (render (patchSucc c))
      else
        match parseSemVer target with
        | none => .error ("Version " ++ target ++ " is not semver")
        | some tv =>
          if tv = patchSucc c ∨ tv = minorSucc c ∨ tv = majorSucc c then .ok target
          else .error ("Version " ++ target ++ " is not allowed. Use one of "
            ++ render (patchSucc c) ++ ", " ++ render (minorSucc c) ++ ", "
            ++ render (majorSucc c))

theorem parseSemVer_empty : parseSemVer "" = none := rfl

theorem parseSemVer_major_kw : parseSemVer "major" = none := rfl

theorem parseSemVer_minor_kw : parseSemVer "minor" = none := rfl

theorem parseSemVer_patch_kw : parseSemVer "patch" = none := rfl

theorem render_ne_empty (v : SemVer) : render v ≠ "" :=
  render_ne_of_parse v "" (by rw [parseSemVer_empty]; simp)

theorem render_ne_major_kw (v : SemVer) : render v ≠ "major" :=
  render_ne_of_parse v "major" (by rw [parseSemVer_major_kw]; simp)

theorem render_ne_minor_kw (v : SemVer) : render v ≠ "minor" :=
  render_ne_of_parse v "minor" (by rw [parseSemVer_minor_kw]; simp)

theorem render_ne_patch_kw (v : SemVer) : render v ≠ "patch" :=
  render_ne_of_parse v "patch" (by rw [parseSemVer_patch_kw]; simp)

/--
C1: for every valid SemVer current version (M,m,p), validateTransition
returns (M,m,p+1) for target patch, (M,m+1,0) for minor and (M+1,0,0) for
major, and passing the equivalent explicit version string as the target
returns the same result unchanged.
-/
theorem validateTransition_successor_cases (cur : String) (c : SemVer)
    (h : parseSemVer cur = some c) :
    validateTransition cur "patch" = .ok (render (patchSucc c)) ∧
    validateTransition cur "minor" = .ok (render (minorSucc c)) ∧
    validateTransition cur "major" = .ok (render (majorSucc c)) ∧
    validateTransition cur (render (patchSucc c)) = .ok (render (patchSucc c)) ∧
    validateTransition cur (render (minorSucc c)) = .ok (render (minorSucc c)) ∧
    validateTransition cur (render (majorSucc c)) = .ok (render (majorSucc c)) := by
  refine ⟨?_, ?_, ?_, ?_, ?_, ?_⟩
  · simp [validateTransition, h]
  · simp [validateTransition, h]
  · simp [validateTransition, h]
  · simp [validateTransition, h, parseSemVer_render, render_ne_empty,
      render_ne_major_kw, render_ne_minor_kw, render_ne_patch_kw]
  · simp [validateTransition, h, parseSemVer_render, render_ne_empty,
      render_ne_major_kw, render_ne_minor_kw, render_ne_patch_kw]
  · simp [validateTransition, h, parseSemVer_render, render_ne_empty,
      render_ne_major_kw, render_ne_minor_kw, render_ne_patch_kw]

/--
Witness for C1 at current version 1.0.0, matching the six success cases of
the validator test suite.
-/
theorem validateTransition_successor_cases_witness :
    validateTransition "1.0.0" "patch" = .ok "1.0.1" ∧
    validateTransition "1.0.0" "minor" = .ok "1.1.0" ∧
    validateTransition "1.0.0" "major" = .ok "2.0.0" ∧
    validateTransition "1.0.0" "1.0.1" = .ok "1.0.1" ∧
    validateTransition "1.0.0" "1.1.0" = .ok "1.1.0" ∧
    validateTransition "1.0.0" "2.0.0" = .ok "2.0.0" :=
  validateTransition_successor_cases "1.0.0" ⟨1, 0, 0⟩ rfl

/--
C2: for every valid SemVer current version and every explicit SemVer target
that is not one of the three allowed successors, validateTransition fails
and the failure message enumerates exactly the three allowed successors in
patch, minor, major order.
-/
theorem validateTransition_rejects_gap (cur t : String) (c tv : SemVer)
    (hc : parseSemVer cur = some c) (ht : parseSemVer t = some tv)
    (h1 : tv ≠ patchSucc c) (h2 : tv ≠ minorSucc c) (h3 : tv ≠ majorSucc c) :
    validateTransition cur t = .error ("Version " ++ t ++ " is not allowed. Use one of "
      ++ render (patchSucc c) ++ ", " ++ render (minorSucc c) ++ ", "
      ++ render (majorSucc c)) := by
  have hte : t ≠ "" := by
    intro he; rw [he, parseSemVer_empty] at ht; exact Option.noConfusion ht
  have htmaj : t ≠ "major" := by
    intro he; rw [he, parseSemVer_major_kw] at ht; exact Option.noConfusion ht
  have htmin : t ≠ "minor" := by
    intro he; rw [he, parseSemVer_minor_kw] at ht; exact Option.noConfusion ht
  have htpat : t ≠ "patch" := by
    intro he; rw [he, parseSemVer_patch_kw] at ht; exact Option.noConfusion ht
  simp [validateTransition, hc, ht, hte, htmaj, htmin, htpat, h1, h2, h3]

/--
Witness for C2: from current version 1.0.0, the explicit target 1.0.2 is
rejected with the message of the validator test suite.
-/
theorem validateTransition_rejects_gap_witness :
    validateTransition "1.0.0" "1.0.2" =
      .error "Version 1.0.2 is not allowed. Use one of 1.0.1, 1.1.0, 2.0.0" :=
  validateTransition_rejects_gap "1.0.0" "1.0.2" ⟨1, 0, 0⟩ ⟨1, 0, 2⟩ rfl rfl
    (by decide) (by decide) (by decide)

/--
C6: for every current version string that does not parse as SemVer and
every non-empty requested target, validateTransition fails citing the
current version as invalid; the current-version check precedes target
validation.
-/
theorem validateTransition_bad_current (cur t : String)
    (hc : parseSemVer cur = none) (ht : t ≠ "") :
    validateTransition cur t = .error ("Existing version " ++ cur ++ " is not semver") := by
  simp [validateTransition, hc, ht]

/--
Witness for C6: a non-SemVer current version is reported even though the
requested target 1.0.1 is itself a valid explicit target.
-/
theorem validateTransition_bad_current_witness :
    validateTransition "1.0.c" "1.0.1" = .error "Existing version 1.0.c is not semver" :=
  validateTransition_bad_current "1.0.c" "1.0.1" rfl (by decide)

/--
C7: for every current version string, valid SemVer or not,
validateTransition with an empty requested target fails with the
version-required diagnostic.
-/
theorem validateTransition_empty_target (cur : String) :
    validateTransition cur "" = .error "Please provide version" := rfl

/-- Result of a spawned git subprocess: the exit status (none models the
null status reported after a failed spawn) and the captured stdout (none
models the absent stdout of a failed spawn). -/
structure SpawnResult where
  status : Option Int
  stdout : Option String
deriving DecidableEq, Repr

/-- Errors raised by the git adapter: the deliberate diagnostics thrown in
git.js, and the JavaScript TypeError raised when stdout is missing or
holds no usable token. -/
inductive GitError where
  | couldNotAdd
  | couldNotGetTags
  | couldNotCommit
  | couldNotTag
  | couldNotPush
  | typeError (msg : String)
deriving DecidableEq, Repr

/-- Message carried by each adapter error, as thrown in git.js. -/
def GitError.message : GitError → String
  | .couldNotAdd => "Could not add"
  | .couldNotGetTags => "Could not get git tags"
  | .couldNotCommit => "Could not commit"
  | .couldNotTag => "Could not tag"
  | .couldNotPush => "Could not push"
  | .typeError m => m

/-- Message of the TypeError raised when the split method is read from a
null stdout. -/
def nullSplitMsg : String := "Cannot read properties of null"

/-- Message of the TypeError raised when the replace method is read from
the undefined result of find on a token list with no non-empty entry. -/
def noTokenMsg : String := "Cannot read properties of undefined"

/-- JavaScript truthiness of the status field of a spawn result; a null
status (failed spawn) and a zero status are both falsy. -/
def statusTruthy (r : SpawnResult) : Bool :=
  match r.status with
  | some n => n != 0
  | none => false

/-- The whitespace characters of the regular expression class backslash-s
used by the split call in git.js. -/
def jsWsChars : List Char := [' ', '\t', '\n', '\r', '\x0b', '\x0c']

/-- Whitespace test of that regular expression class. -/
def isJsWs (c : Char) : Bool := jsWsChars.contains c

/-- Removes the first occurrence of the character v anywhere in the list,
and nothing else. -/
def removeFirstV : List Char → List Char
  | [] => []
  | c :: cs => if c = 'v' then cs else c :: removeFirstV cs

/-- The tag-name transformation x.replace of git.js lines 32 and 45: the
JavaScript replace of a one-character string pattern rewrites only the
first occurrence, wherever it is. -/
def jsReplaceV (s : String) : String := String.mk (removeFirstV s.data)

/-- Tokens produced by stdout.split on single whitespace characters. -/
def wsTokens (out : String) : List (List Char) := jsSplit isJsWs out.data

namespace Git

/-- Embeds git.js add: throws exactly when the spawn status is truthy. -/
def add (r : SpawnResult) : Except GitError Unit :=
  if statusTruthy r then .error .couldNotAdd else .ok ()

/-- Embeds git.js commit: throws exactly when the spawn status is truthy. -/
def commit (r : SpawnResult) : Except GitError Unit :=
  if statusTruthy r then .error .couldNotCommit else .ok ()

/-- Embeds the argument vector built by git.js tag for the spawned
subprocess. -/
def tagArgv (version : String) : List String :=
  ["tag", "-m", "Releasing version " ++ version, "v" ++ version]

/-- Embeds the error behaviour of git.js tag: throws exactly when the
spawn status is truthy. -/
def tagRun (r : SpawnResult) : Except GitError Unit :=
  if statusTruthy r then .error .couldNotTag else .ok ()

/-- Embeds git.js push: throws exactly when the spawn status is truthy. -/
def push (r : SpawnResult) : Except GitError Unit :=
  if statusTruthy r then .error .couldNotPush else .ok ()

/-- Embeds git.js versionExists: splits stdout on whitespace, keeps truthy
tokens, removes the first v of each, and tests membership. -/
def versionExists (r : SpawnResult) (version : String) : Except GitError Bool :=
  if statusTruthy r then .error .couldNotGetTags
  else
    match r.stdout with
    | none => .error (.typeError nullSplitMsg)
    | some out =>
      .ok ((((wsTokens out).filter (fun t => !t.isEmpty)).map
        (fun t => String.mk (removeFirstV t))).contains version)

/-- Embeds git.js latestVersion: splits stdout on whitespace, finds the
first truthy token and removes its first v; reading replace from the
undefined result of an unsuccessful find raises a TypeError. -/
def latestVersion (r : SpawnResult) : Except GitError String :=
  if statusTruthy r then .error .couldNotGetTags
  else
    match r.stdout with
    | none => .error (.typeError nullSplitMsg)
    | some out =>
      match (wsTokens out).find? (fun t => !t.isEmpty) with
      | none => .error (.typeError noTokenMsg)
      | some t => .ok (String.mk (removeFirstV t))

end Git

/-- Annotated-tag request as the git binary reads it from an argument
vector of the form tag -m message name. -/
structure TagCmd where
  name : String
  message : String
  annotated : Bool
deriving DecidableEq, Repr

/-- Interpretation of the two tag argument-vector shapes of the git
binary: with -m an annotated tag carrying a message, without it a
lightweight tag. -/
def interpretTagArgv : List String → Option TagCmd
  | ["tag", "-m", m, n] => some ⟨n, m, true⟩
  | ["tag", n] => some ⟨n, "", false⟩
  | _ => none

/--
C8: for every validated next version X, the tag operation creates an
annotated tag named exactly v followed by X, with tag message exactly
Releasing version X.
-/
theorem tagArgv_annotated (x : String) :
    interpretTagArgv (Git.tagArgv x) =
      some ⟨"v" ++ x, "Releasing version " ++ x, true⟩ := rfl

theorem removeFirstV_of_not_mem (a : List Char) (h : 'v' ∉ a) :
    removeFirstV a = a := by
  induction a with
  | nil => rfl
  | cons c cs ih =>
    have hc : c ≠ 'v' := fun he => h (he ▸ List.mem_cons_self c cs)
    simp [removeFirstV, hc, ih (fun hm => h (List.mem_cons_of_mem c hm))]

theorem removeFirstV_append_first (a b : List Char) (h : 'v' ∉ a) :
    removeFirstV (a ++ 'v' :: b) = a ++ b := by
  induction a with
  | nil => simp [removeFirstV]
  | cons c cs ih =>
    have hc : c ≠ 'v' := fun he => h (he ▸ List.mem_cons_self c cs)
    simp [removeFirstV, hc, ih (fun hm => h (List.mem_cons_of_mem c hm))]

/--
C10: the tag-name transformation used by latestVersion and versionExists
removes exactly the first occurrence of the character v anywhere in the
tag, not a leading v prefix specifically, and leaves a tag with no v
unchanged.
-/
theorem jsReplaceV_first_occurrence (a b : List Char) (h : 'v' ∉ a) :
    jsReplaceV (String.mk (a ++ 'v' :: b)) = String.mk (a ++ b) ∧
    jsReplaceV (String.mk a) = String.mk a := by
  constructor
  · simp only [jsReplaceV]
    rw [removeFirstV_append_first a b h]
  · simp only [jsReplaceV]
    rw [removeFirstV_of_not_mem a h]

/--
Witness for C10: the tag rev1.0.0, whose first v is interior, becomes
re1.0.0, and the v-free tag re1.0.0 is unchanged.
-/
theorem jsReplaceV_first_occurrence_witness :
    jsReplaceV "rev1.0.0" = "re1.0.0" ∧ jsReplaceV "re" = "re" := by
  have h := jsReplaceV_first_occurrence ['r', 'e'] ['1', '.', '0', '.', '0'] (by decide)
  exact h

theorem ends_not_semver_getLast (pre tail : String) :
    (pre ++ tail ++ " is not semver").data.getLast? = some 'r' := by
  rw [String.data_append, List.getLast?_append_of_ne_nil _ (by decide)]
  decide

/--
C5: when the tag-listing command succeeds but the repository has no tags
(empty stdout), resolving the current version fails fatally, and the
diagnostic differs from both not-semver validation messages, whatever
version strings those cite.
-/
theorem latestVersion_no_tags (cur t : String) :
    Git.latestVersion ⟨some 0, some ""⟩ = .error (.typeError noTokenMsg) ∧
    GitError.message (.typeError noTokenMsg) ≠
      "Existing version " ++ cur ++ " is not semver" ∧
    GitError.message (.typeError noTokenMsg) ≠
      "Version " ++ t ++ " is not semver" := by
  refine ⟨rfl, ?_, ?_⟩
  · intro he
    have h3 : (GitError.message (.typeError noTokenMsg)).data.getLast? = some 'r' := by
      rw [he]; exact ends_not_semver_getLast "Existing version " cur
    exact absurd h3 (by decide)
  · intro he
    have h3 : (GitError.message (.typeError noTokenMsg)).data.getLast? = some 'r' := by
      rw [he]; exact ends_not_semver_getLast "Version " t
    exact absurd h3 (by decide)

/--
Witness for C5 against the two validation messages of the test suite.
-/
theorem latestVersion_no_tags_witness :
    Git.latestVersion ⟨some 0, some ""⟩ = .error (.typeError noTokenMsg) ∧
    GitError.message (.typeError noTokenMsg) ≠ "Existing version 1.0.c is not semver" ∧
    GitError.message (.typeError noTokenMsg) ≠ "Version 1.0.x is not semver" :=
  latestVersion_no_tags "1.0.c" "1.0.x"

/-- True exactly when an adapter call raised. -/
def isErr {α : Type} : Except GitError α → Bool
  | .error _ => true
  | .ok _ => false

/-- True exactly when the latestVersion token scan crashes for a falsy
status: stdout missing entirely, or holding no non-empty token. -/
def listingNoToken (r : SpawnResult) : Bool :=
  match r.stdout with
  | none => true
  | some out => ((wsTokens out).find? (fun t => !t.isEmpty)).isNone

/--
Counterexample to C9 as stated: with a successful spawn, zero exit status
and empty stdout, the status is falsy yet latestVersion raises (a
TypeError), and with a failed spawn (null status, null stdout),
versionExists raises as well, so raising is not exactly truthy-status.
-/
theorem latestVersion_raises_on_falsy_status :
    statusTruthy ⟨some 0, some ""⟩ = false ∧
    Git.latestVersion ⟨some 0, some ""⟩ = .error (.typeError noTokenMsg) ∧
    statusTruthy ⟨none, none⟩ = false ∧
    Git.versionExists ⟨none, none⟩ "1.0.0" = .error (.typeError nullSplitMsg) :=
  ⟨rfl, rfl, rfl, rfl⟩

/--
C9 amended: add, commit, tag and push raise exactly when the status is
truthy (hence return normally on a failed spawn, whose status is falsy);
latestVersion and versionExists also raise their deliberate error exactly
on truthy status, but additionally raise a TypeError on falsy status when
stdout is missing or, for latestVersion, holds no non-empty token.
-/
theorem gitOps_error_characterization (r : SpawnResult) (ver : String) :
    isErr (Git.add r) = statusTruthy r ∧
    isErr (Git.commit r) = statusTruthy r ∧
    isErr (Git.tagRun r) = statusTruthy r ∧
    isErr (Git.push r) = statusTruthy r ∧
    isErr (Git.latestVersion r) = (statusTruthy r || listingNoToken r) ∧
    isErr (Git.versionExists r ver) = (statusTruthy r || r.stdout.isNone) := by
  refine ⟨?_, ?_, ?_, ?_, ?_, ?_⟩
  · by_cases hs : statusTruthy r <;> simp [Git.add, isErr, hs]
  · by_cases hs : statusTruthy r <;> simp [Git.commit, isErr, hs]
  · by_cases hs : statusTruthy r <;> simp [Git.tagRun, isErr, hs]
  · by_cases hs : statusTruthy r <;> simp [Git.push, isErr, hs]
  · by_cases hs : statusTruthy r
    · simp [Git.latestVersion, isErr, hs]
    · rcases hst : r.stdout with _ | out
      · simp [Git.latestVersion, isErr, hs, listingNoToken, hst]
      · rcases hf : (wsTokens out).find? (fun t => !t.isEmpty) with _ | tok
        · simp [Git.latestVersion, isErr, hs, listingNoToken, hst, hf]
        · simp [Git.latestVersion, isErr, hs, listingNoToken, hst, hf]
  · by_cases hs : statusTruthy r
    · simp [Git.versionExists, isErr, hs]
    · rcases hst : r.stdout with _ | out
      · simp [Git.versionExists, isErr, hs, hst]
      · simp [Git.versionExists, isErr, hs, hst]

/-- A mutating adapter operation of the release sequence. -/
inductive Step where
  | stage (file : String)
  | commit (message : String)
  | tag (version : String)
  | push
deriving DecidableEq, Repr

/--
Modelled from the spec: the release orchestrator of specification section
4.2, whose source file is absent from the repository snapshot.  It resolves
and validates the transition, then (outside dry-run) stages the configured
files, commits with the default or overridden message, tags and pushes
unless suppressed; the returned list is the sequence of mutating adapter
operations performed, and the option the abort diagnostic.
-/
def releaseRun (current target : String) (dryRun noPush : Bool)
    (files : List String) (message : Option String) : List Step × Option String :=
  match validateTransition current target with
  | .error e => ([], some e)
  | .ok next =>
    if dryRun then ([], none)
    else
      ((files.map Step.stage)
        ++ [Step.commit (message.getD ("Releasing version " ++ next)), Step.tag next]
        ++ (if noPush then [] else [Step.push]), none)

/--
C3: whenever the transition validator fails, the release run aborts with
that diagnostic before any mutating adapter operation (stage, commit, tag,
push) is performed.
-/
theorem releaseRun_aborts_before_mutation (current target : String)
    (dryRun noPush : Bool) (files : List String) (message : Option String)
    (e : String) (h : validateTransition current target = .error e) :
    releaseRun current target dryRun noPush files message = ([], some e) := by
  simp [releaseRun, h]

/--
Witness for C3: the end-to-end scenario with current tag version 1.0.0 and
requested target 1.0.2 aborts with the no-gap message and performs no
mutation.
-/
theorem releaseRun_aborts_before_mutation_witness :
    releaseRun "1.0.0" "1.0.2" false false ["README.md"] none =
      ([], some "Version 1.0.2 is not allowed. Use one of 1.0.1, 1.1.0, 2.0.0") :=
  releaseRun_aborts_before_mutation "1.0.0" "1.0.2" false false ["README.md"] none _ rfl

/-- SemVer ordering: lexicographic on (major, minor, patch). -/
def svLe (a b : SemVer) : Prop :=
  a.major < b.major ∨
    (a.major = b.major ∧
      (a.minor < b.minor ∨ (a.minor = b.minor ∧ a.patch ≤ b.patch)))

instance (a b : SemVer) : Decidable (svLe a b) :=
  inferInstanceAs (Decidable (a.major < b.major ∨
    (a.major = b.major ∧
      (a.minor < b.minor ∨ (a.minor = b.minor ∧ a.patch ≤ b.patch)))))

theorem svLe_refl (a : SemVer) : svLe a a :=
  Or.inr ⟨rfl, Or.inr ⟨rfl, le_refl _⟩⟩

/-- Strips a leading v, and only a leading one. -/
def stripLeadingV (t : String) : String :=
  match t.data with
  | 'v' :: rest => String.mk rest
  | _ => t

/-- Resolution of the current version as claimed of the code: strip the v
of each tag, keep only the SemVer-parseable entries, return the maximum of
those by SemVer ordering.  Stated from the words of the specification, to
be compared against the latestVersion embedding. -/
def specResolveCurrent (tags : List String) : Option String :=
  match tags.filterMap (fun t => parseSemVer (stripLeadingV t)) with
  | [] => none
  | v :: rest =>
    some (render (rest.foldl (fun a b => if svLe a b then b else a) v))

/-- Newline-joined v-prefixed tag listing, as git prints one tag per line. -/
def tagsOut : List SemVer → List Char
  | [] => []
  | [v] => 'v' :: renderChars v
  | v :: rest => 'v' :: (renderChars v ++ ('\n' :: tagsOut rest))

theorem renderChars_no_ws (v : SemVer) : ∀ c ∈ renderChars v, isJsWs c = false := by
  intro c hc
  simp only [renderChars, List.mem_append, List.mem_cons] at hc
  have hdig : ∀ n : Nat, c ∈ decDigits n → isJsWs c = false := by
    intro n hn
    obtain ⟨d, hd, rfl⟩ := mem_decDigits n c hn
    have : ∀ e, e < 10 → isJsWs (digitOf e) = false := by decide
    exact this d hd
  rcases hc with h1 | h2 | h3
  · exact hdig _ h1
  · rw [h2]; decide
  · rcases h3 with h4 | h5 | h6
    · exact hdig _ h4
    · rw [h5]; decide
    · exact hdig _ h6

theorem head_token_no_ws (v : SemVer) :
    ∀ c ∈ 'v' :: renderChars v, isJsWs c = false := by
  intro c hc
  rcases List.mem_cons.mp hc with rfl | hm
  · decide
  · exact renderChars_no_ws v c hm

theorem jsSplit_tagsOut (v : SemVer) (rest : List SemVer) :
    ∃ ts, jsSplit isJsWs (tagsOut (v :: rest)) = ('v' :: renderChars v) :: ts := by
  cases rest with
  | nil =>
    exact ⟨[], jsSplit_of_no_sep isJsWs ('v' :: renderChars v) (head_token_no_ws v)⟩
  | cons w rs =>
    refine ⟨jsSplit isJsWs (tagsOut (w :: rs)), ?_⟩
    have : tagsOut (v :: w :: rs) =
        ('v' :: renderChars v) ++ ('\n' :: tagsOut (w :: rs)) := by
      simp [tagsOut]
    rw [this]
    exact jsSplit_append_sep isJsWs ('v' :: renderChars v) (tagsOut (w :: rs)) '\n'
      (head_token_no_ws v) (by decide)

/--
C4 amended: when the tag listing holds v-prefixed SemVer tags sorted
descending by SemVer order, as the sort flag passed to the subprocess by
latestVersion arranges, the resolved current version is the head of the
listing, which is the maximum of the tags by SemVer ordering.
-/
theorem latestVersion_of_sorted_tags (v : SemVer) (rest : List SemVer)
    (hs : (v :: rest).Pairwise (fun a b => svLe b a)) :
    Git.latestVersion ⟨some 0, some (String.mk (tagsOut (v :: rest)))⟩ = .ok (render v) ∧
    ∀ x ∈ v :: rest, svLe x v := by
  constructor
  · obtain ⟨ts, hts⟩ := jsSplit_tagsOut v rest
    have hfind : (wsTokens (String.mk (tagsOut (v :: rest)))).find?
        (fun t => !t.isEmpty) = some ('v' :: renderChars v) := by
      simp [wsTokens, hts]
    simp [Git.latestVersion, statusTruthy, hfind, removeFirstV, render]
  · intro x hx
    rcases List.mem_cons.mp hx with rfl | hm
    · exact svLe_refl x
    · exact (List.pairwise_cons.mp hs).1 x hm

/--
Witness for C4 amended: the descending listing of the tags v1.2.3, v1.1.0,
v1.0.0 resolves to 1.2.3, the SemVer maximum.
-/
theorem latestVersion_of_sorted_tags_witness :
    Git.latestVersion ⟨some 0, some "v1.2.3\nv1.1.0\nv1.0.0"⟩ = .ok "1.2.3" ∧
    ∀ x ∈ [SemVer.mk 1 2 3, SemVer.mk 1 1 0, SemVer.mk 1 0 0], svLe x ⟨1, 2, 3⟩ :=
  latestVersion_of_sorted_tags ⟨1, 2, 3⟩ [⟨1, 1, 0⟩, ⟨1, 0, 0⟩] (by decide)

/--
Counterexample to C4 as stated: the resolution function itself neither
filters nor maximizes; fed the adapter-returned tag list v1.0.0, v1.2.3,
v1.1.0 in that order it returns 1.0.0, the first entry, not the SemVer
maximum 1.2.3 demanded by the claim (computed here by the resolution
written from the words of the specification).
-/
theorem latestVersion_takes_first_not_max :
    Git.latestVersion ⟨some 0, some "v1.0.0\nv1.2.3\nv1.1.0"⟩ = .ok "1.0.0" ∧
    specResolveCurrent ["v1.0.0", "v1.2.3", "v1.1.0"] = some "1.2.3" ∧
    ("1.0.0" : String) ≠ "1.2.3" := by
  refine ⟨rfl, rfl, by decide⟩
